import Mathlib

/-!
Verification development for the blockscout-vc sidecar's
change-to-restart reconciliation pipeline.

The Go source is shallowly embedded:

* `Env` models `internal/env` (the flat environment-file Config Mutator
  backing): parsing `KEY=VALUE` lines, serializing with sorted keys and
  quoting, and `UpdateEnvVars`, which reports whether any value changed
  and rewrites the file only in that case.
* `Container`, `Job`, `Worker` model `internal/worker` together with the
  `docker` helpers it uses for key derivation (`UniqueContainers`,
  `GetContainerNames`, `strings.Join`).  The worker's mutable state
  (the buffered `jobs` channel, the job currently held by the processing
  loop, and the mutex-guarded `jobSet` map) becomes an explicit state
  record, and its public operations become state transformers.
* `GoURL`/`parseURL` model the fragment of Go's `net/url.Parse` used by
  the handlers (scheme scanning per `getScheme`, `//authority` splitting,
  digit-validated optional port after the last colon).  IPv6 bracket
  hosts and percent escapes are outside the modelled fragment.
* `CoinHandler`, `ImageHandler`, `NameHandler`, `ExplorerHandler` model
  the handlers in `internal/handlers` (env-file backing selected, i.e.
  `pathToCommonEnvironmentFile`/`pathToEnvFile` configured); the image
  handler's HTTP HEAD probe is abstracted into a `fetch` oracle
  parameter.  Ambient viper configuration becomes an explicit `Config`.
* `PostgresChanges.HandleMessage` and `Subscription.InitialCheckRows`
  model `internal/subscription`.

Go string operations are re-implemented over `List Char` so that every
definition evaluates inside the kernel (`decide`/`rfl`); byte lengths use
an explicit UTF-8 size so that Go's `len` on strings is modelled exactly.
-/

/-- Lexicographic comparison of char lists by code point; on the strings
appearing here this coincides with Go's byte-wise string order (UTF-8
encoding preserves code-point order). -/
def charListLe : List Char → List Char → Bool
  | [], _ => true
  | _ :: _, [] => false
  | a :: as, b :: bs =>
    if a.toNat < b.toNat then true
    else if a.toNat = b.toNat then charListLe as bs
    else false

/-- String order used to model Go's `sort.Strings`. -/
def strLeB (a b : String) : Bool := charListLe a.data b.data

/-- Insert a string into a sorted list, keeping it sorted. -/
def insertSorted (s : String) : List String → List String
  | [] => [s]
  | t :: ts => if strLeB s t then s :: t :: ts else t :: insertSorted s ts

/-- Ascending sort, modelling Go's `sort.Strings`. -/
def sortStrings (l : List String) : List String := l.foldr insertSorted []

/-- Rebuild a string from its characters. -/
def strOfChars (cs : List Char) : String := String.mk cs

/-- Model of Go's `strings.Join(l, ",")`. -/
def joinComma : List String → String
  | [] => ""
  | [s] => s
  | s :: rest => s ++ "," ++ joinComma rest

/-- ASCII whitespace recognised by Go's `strings.TrimSpace` (the handled
inputs are ASCII, so the Unicode cases of `unicode.IsSpace` are not
needed). -/
def isWsChar (c : Char) : Bool :=
  c = ' ' || c = '\t' || c = '\n' || c = '\r' || c = '\x0b' || c = '\x0c'

/-- Drop leading and trailing characters satisfying `p`. -/
def trimBy (p : Char → Bool) (cs : List Char) : List Char :=
  ((cs.dropWhile p).reverse.dropWhile p).reverse

/-- Model of Go's `strings.TrimSpace`. -/
def strTrim (s : String) : String := strOfChars (trimBy isWsChar s.data)

/-- Model of Go's `strings.Trim(s, cutset)`: remove all leading and
trailing characters contained in `cut`. -/
def trimCutset (cut : List Char) (s : String) : String :=
  strOfChars (trimBy (fun c => cut.contains c) s.data)

/-- `leadsList pre cs` is true when `pre` is an initial segment of `cs`
(model of Go's `strings.HasPrefix`). -/
def leadsList : List Char → List Char → Bool
  | [], _ => true
  | _ :: _, [] => false
  | a :: as, b :: bs => a = b && leadsList as bs

/-- Model of Go's `strings.HasPrefix(s, pre)`. -/
def strStartsWith (s pre : String) : Bool := leadsList pre.data s.data

/-- Model of Go's `strings.Contains(s, c)` for a single character. -/
def strContainsChar (s : String) (c : Char) : Bool := s.data.contains c

/-- UTF-8 byte count of one character. -/
def charBytes (c : Char) : Nat :=
  if c.toNat < 128 then 1
  else if c.toNat < 2048 then 2
  else if c.toNat < 65536 then 3
  else 4

/-- Model of Go's `len` on a string: its UTF-8 byte length. -/
def byteLen (s : String) : Nat := (s.data.map charBytes).sum

/-- ASCII lower-casing of one character. -/
def toLowerChar (c : Char) : Char :=
  if 65 ≤ c.toNat ∧ c.toNat ≤ 90 then Char.ofNat (c.toNat + 32) else c

/-- Model of Go's `strings.ToLower` for ASCII. -/
def strToLower (s : String) : String := strOfChars (s.data.map toLowerChar)

/-! ## Environment-file Config Mutator (`internal/env`, src/unnamed/part_002) -/

/-- In-memory environment mapping, modelling Go's `map[string]string`
(`Env.EnvFile`).  Keys are kept unique by construction. -/
abbrev EnvMap := List (String × String)

/-- Lookup in the environment mapping (`e.EnvFile[key]`). -/
def envLookup : EnvMap → String → Option String
  | [], _ => none
  | (k, v) :: rest, key => if k = key then some v else envLookup rest key

/-- Assignment `e.EnvFile[key] = value`: replace the binding if the key is
present, otherwise add it. -/
def envSet : EnvMap → String → String → EnvMap
  | [], key, value => [(key, value)]
  | (k, v) :: rest, key, value =>
    if k = key then (k, value) :: rest else (k, v) :: envSet rest key value

/-- One iteration of `Env.ReadEnvFile`'s scanner loop: trim the line, skip
blanks and `#` comments, split at the first `=` (`strings.SplitN(line,
"=", 2)`, lines without `=` are skipped), trim both parts and strip
surrounding quotes from the value. -/
def parseEnvLine (line : String) : Option (String × String) :=
  let t := strTrim line
  if t = "" then none
  else if strStartsWith t "#" then none
  else
    match t.data.splitOn '=' with
    | [] => none
    | [_] => none
    | k :: rest =>
      let value := strOfChars (List.intercalate ['='] rest)
      some (strTrim (strOfChars k), trimCutset ['"', '\''] (strTrim value))

/-- Model of `Env.ReadEnvFile` on the file's lines, starting from an empty
in-memory map (a fresh `Env` as built by `NewEnv`/`NewBaseHandler`). -/
def parseEnvFile (lines : List String) : EnvMap :=
  lines.foldl
    (fun m line =>
      match parseEnvLine line with
      | some (k, v) => envSet m k v
      | none => m)
    []

/-- Model of `Env.WriteEnvFile`: keys in sorted order, one `KEY=VALUE`
line each, values containing a space wrapped in double quotes. -/
def serializeEnv (m : EnvMap) : List String :=
  (sortStrings (m.map Prod.fst)).map fun k =>
    let v := (envLookup m k).getD ""
    let v := if strContainsChar v ' ' then "\"" ++ v ++ "\"" else v
    k ++ "=" ++ v

/-- The update loop of `Env.UpdateEnvVars`: for each requested key, if it
is absent or bound to a different value, set it and record that a change
happened.  The Go loop ranges over a `map[string]string`, whose keys are
distinct, so modelling it as a list fold is faithful. -/
def applyEnvUpdates : EnvMap → List (String × String) → Bool × EnvMap
  | m, [] => (false, m)
  | m, kv :: rest =>
    if envLookup m kv.1 = some kv.2 then applyEnvUpdates m rest
    else
      let r := applyEnvUpdates (envSet m kv.1 kv.2) rest
      (true, r.2)

/-- Model of `Env.UpdateEnvVars` as a transformer of the file's on-disk
lines: read the file, apply the updates, and rewrite the file only when
some value changed. -/
def Env.UpdateEnvVars (disk : List String) (updates : List (String × String)) :
    Bool × List String :=
  let m := parseEnvFile disk
  let r := applyEnvUpdates m updates
  (r.1, if r.1 then serializeEnv r.2 else disk)

/-! ## Restart Worker (`internal/worker`, src/unnamed/part_000) and the
`docker` helpers it uses for key derivation -/

/-- `docker.Container`: a runtime container name paired with its compose
service name. -/
structure Container where
  Name : String
  ServiceName : String
deriving DecidableEq, Repr

/-- `worker.Job`: one container-recreation task. -/
structure Job where
  Containers : List Container
deriving DecidableEq, Repr

/-- `Worker.makeKey`: `docker.UniqueContainers` deduplicates the
containers by `Name` (a Go map keyed by name), `docker.GetContainerNames`
extracts the names and sorts them, and the result is comma-joined.  The
composite is the sorted list of distinct names, joined by `","`. -/
def makeKey (containers : List Container) : String :=
  joinComma (sortStrings (containers.map Container.Name).eraseDups)

/-- The `worker.Worker` state: the buffered `jobs` channel, the job the
processing loop is currently holding (the `job := <-w.jobs` local), and
the mutex-guarded `jobSet` deduplication map (a Go `map[string]struct{}`,
modelled as a finite set of keys). -/
structure Worker where
  jobs : List Job
  inFlight : Option Job
  jobSet : Finset String
deriving DecidableEq

/-- The state made by `worker.New()`: empty queue, nothing in flight,
empty dedup set. -/
def Worker.initial : Worker := { jobs := [], inFlight := none, jobSet := ∅ }

/-- `Worker.AddJob`: reject when the container list is empty or its key is
already in `jobSet`; otherwise record the key and enqueue the job,
returning true. -/
def Worker.AddJob (s : Worker) (containers : List Container) : Bool × Worker :=
  if containers = [] then (false, s)
  else
    let key := makeKey containers
    if key ∈ s.jobSet then (false, s)
    else
      (true,
        { s with
          jobSet := insert key s.jobSet
          jobs := s.jobs ++ [{ Containers := containers }] })

/-- `Worker.cleanupJob`: delete a key from the dedup set. -/
def Worker.cleanupJob (s : Worker) (key : String) : Worker :=
  { s with jobSet := s.jobSet.erase key }

/-- The worker's state at the instant `docker.RecreateContainers` returns
for the job it was processing, after the cleanup that runs right there:
on success `process` calls `cleanupJob` immediately (before the settle
delay); on failure the deferred `cleanupJob` runs as the closure returns.
Either way the job's key is gone before any settle delay elapses. -/
def Worker.finishRecreation (s : Worker) (j : Job) : Worker :=
  Worker.cleanupJob { s with inFlight := none } (makeKey j.Containers)

/-- The worker's state after `process` fully completes one job: on
success, the settle delay passes (no state change) and the deferred
`cleanupJob` runs a second time; on failure only the deferred cleanup
runs. -/
def Worker.processJob (s : Worker) (j : Job) (success : Bool) : Worker :=
  if success then
    Worker.cleanupJob (Worker.finishRecreation s j) (makeKey j.Containers)
  else Worker.finishRecreation s j

/-- The keys of all jobs currently queued or being processed. -/
def Worker.queuedOrInFlightKeys (s : Worker) : List String :=
  (s.inFlight.map fun j => makeKey j.Containers).toList
    ++ s.jobs.map fun j => makeKey j.Containers

/-- The worker's atomic state changes, one per mutex-guarded action of
the source: a producer calls `AddJob`; the processing loop dequeues a
job; the success path's *immediate* `cleanupJob` (part_000 line 99) runs
while the closure still holds the job through the settle delay
(`cleanupHold`); and the *deferred* `cleanupJob` runs as the closure
returns — directly on the failure path, or after the settle delay on the
success path (`cleanupRelease`).  The two cleanups are separate mutex
acquisitions, so submissions interleave freely between them, exactly as
in the source. -/
inductive Worker.Step : Worker → Worker → Prop
  | submit (s : Worker) (cs : List Container) : Worker.Step s (Worker.AddJob s cs).2
  | dequeue (s : Worker) (j : Job) (rest : List Job) :
      s.jobs = j :: rest → s.inFlight = none →
      Worker.Step s { jobs := rest, inFlight := some j, jobSet := s.jobSet }
  | cleanupHold (s : Worker) (j : Job) :
      s.inFlight = some j →
      Worker.Step s { s with jobSet := s.jobSet.erase (makeKey j.Containers) }
  | cleanupRelease (s : Worker) (j : Job) :
      s.inFlight = some j →
      Worker.Step s
        { s with jobSet := s.jobSet.erase (makeKey j.Containers), inFlight := none }

/-- States the worker can be in, starting from `Worker.initial`. -/
def Worker.Reachable (s : Worker) : Prop :=
  Relation.ReflTransGen Worker.Step Worker.initial s

/-! ## Go `net/url` fragment used by the handlers -/

/-- The fields of Go's `url.URL` consumed by the handlers. -/
structure GoURL where
  Scheme : String
  Host : String
deriving DecidableEq, Repr

/-- Letter test of `net/url.getScheme`. -/
def isAlphaChar (c : Char) : Bool :=
  (97 ≤ c.toNat && c.toNat ≤ 122) || (65 ≤ c.toNat && c.toNat ≤ 90)

/-- Digit test of `net/url.getScheme` and `validOptionalPort`. -/
def isDigitChar (c : Char) : Bool := 48 ≤ c.toNat && c.toNat ≤ 57

/-- The scan loop of `net/url.getScheme`: letters may appear anywhere in a
scheme; digits and `+ - .` may not start it (then the whole input is the
rest, with no scheme); a `:` as the very first character is an error
(`none`); a `:` after scheme characters splits scheme from rest; any other
character means the input has no scheme. -/
def getSchemeAux (orig : List Char) : List Char → List Char → Bool →
    Option (List Char × List Char)
  | [], _, _ => some ([], orig)
  | c :: rest, acc, first =>
    if isAlphaChar c then getSchemeAux orig rest (acc ++ [c]) false
    else if isDigitChar c || c = '+' || c = '-' || c = '.' then
      if first then some ([], orig) else getSchemeAux orig rest (acc ++ [c]) false
    else if c = ':' then
      if first then none else some (acc, rest)
    else some ([], orig)

/-- Characters after the last `@` (userinfo stripping of
`net/url.parseAuthority`). -/
def afterLastAt (cs : List Char) : List Char :=
  cs.foldl (fun acc c => if c = '@' then [] else acc ++ [c]) []

/-- Characters after the last `:`, if any (the candidate port of
`net/url.parseHost`). -/
def afterLastColon (cs : List Char) : Option (List Char) :=
  cs.foldl (fun acc c => if c = ':' then some [] else acc.map (· ++ [c])) none

/-- `net/url.validOptionalPort` on the segment after the last colon: all
digits (possibly none). -/
def validHostPort (hostport : List Char) : Bool :=
  match afterLastColon hostport with
  | none => true
  | some port => port.all isDigitChar

/-- Model of Go's `url.Parse` restricted to the fragment the handlers
exercise: ASCII control characters are rejected, the scheme is scanned by
`getScheme` and lowercased, and when the remainder starts with `//` the
authority (up to the first `/ ? #`) yields `Host` as the text after the
last `@`, with the digits-only check on anything after the last `:`.
IPv6 bracket hosts and percent escapes are outside the modelled
fragment.  URLs without `//` have an empty `Host`. -/
def parseURL (raw : String) : Option GoURL :=
  if raw.data.any (fun c => c.toNat < 32 || c.toNat = 127) then none
  else
    match getSchemeAux raw.data raw.data [] true with
    | none => none
    | some (scheme, rest) =>
      let scheme := strToLower (strOfChars scheme)
      if rest.take 2 = ['/', '/'] then
        let authority := (rest.drop 2).takeWhile fun c =>
          !(c = '/' || c = '?' || c = '#')
        let hostport := afterLastAt authority
        if validHostPort hostport then some ⟨scheme, strOfChars hostport⟩
        else none
      else some ⟨scheme, ""⟩

/-! ## Handler layer (`internal/handlers`): shared types and configuration -/

/-- `handlers.Record`: decoded snapshot of the monitored configuration
row.  The union of the fields across the source's `Record` declarations;
`ExplorerURL` is the field consumed by the explorer handler and the
current name handler. -/
structure Record where
  ID : Int := 0
  Name : String := ""
  Coin : String := ""
  ChainID : String := ""
  LightLogoURL : String := ""
  DarkLogoURL : String := ""
  FaviconURL : String := ""
  ExplorerURL : String := ""
  CreatedAt : String := ""
  UpdatedAt : String := ""
deriving DecidableEq, Repr

/-- `handlers.HandlerResult`: error-or-nil plus the containers that must
be restarted. -/
structure HandlerResult where
  Error : Option String := none
  ContainersToRestart : List Container := []
deriving DecidableEq, Repr

/-- The viper-sourced static configuration consumed by the handlers
(service and container names). -/
structure Config where
  frontendServiceName : String
  frontendContainerName : String
  backendServiceName : String
  backendContainerName : String
  statsServiceName : String
  statsContainerName : String
  proxyServiceName : String
  proxyContainerName : String
deriving DecidableEq, Repr

/-- `handlers.EnvUpdate`: one environment assignment targeted at a
service/container pair. -/
structure EnvUpdate where
  ServiceName : String
  Key : String
  Value : String
  ContainerName : String
deriving DecidableEq, Repr

/-- `BaseHandler.UpdateServiceEnv` in env-file mode (`pathToEnvFile`
configured, src/unnamed/part_006): the service name does not scope the
update — the variables go to the shared env file via
`Env.UpdateEnvVars`. -/
def BaseHandler.UpdateServiceEnv (_serviceName : String)
    (envVars : List (String × String)) (disk : List String) :
    Bool × List String :=
  Env.UpdateEnvVars disk envVars

/-- The per-update loop shared by the coin handler: apply each
`EnvUpdate` through `BaseHandler.UpdateServiceEnv` in order, collecting
the container of every update that changed stored state. -/
def applyEnvUpdateList : List EnvUpdate → List String → HandlerResult × List String
  | [], disk => ({ Error := none, ContainersToRestart := [] }, disk)
  | u :: rest, disk =>
    let r1 := BaseHandler.UpdateServiceEnv u.ServiceName [(u.Key, u.Value)] disk
    let r2 := applyEnvUpdateList rest r1.2
    ({ Error := r2.1.Error
       ContainersToRestart :=
        (if r1.1 then [{ Name := u.ContainerName, ServiceName := u.ServiceName }] else [])
          ++ r2.1.ContainersToRestart },
      r2.2)

/-! ## Coin handler (src/unnamed/part_008, current variant) -/

/-- `MaxCoinLength`. -/
def MaxCoinLength : Nat := 20

/-- `CoinHandler.validateCoin`: non-empty and at most 20 bytes. -/
def CoinHandler.validateCoin (coin : String) : Option String :=
  if coin = "" then some "coin symbol cannot be empty"
  else if MaxCoinLength < byteLen coin then
    some "coin symbol length cannot exceed 20 characters"
  else none

/-- `CoinHandler.Handle`: on a valid symbol, push the same value to the
frontend, backend and stats units under unit-specific keys; every update
that changed state adds its container to the restart list. -/
def CoinHandler.Handle (cfg : Config) (record : Record) (disk : List String) :
    HandlerResult × List String :=
  match CoinHandler.validateCoin record.Coin with
  | some e => ({ Error := some ("invalid coin: " ++ e) }, disk)
  | none =>
    applyEnvUpdateList
      [ { ServiceName := cfg.frontendServiceName
          Key := "NEXT_PUBLIC_NETWORK_CURRENCY_SYMBOL"
          Value := record.Coin
          ContainerName := cfg.frontendContainerName },
        { ServiceName := cfg.backendServiceName
          Key := "COIN"
          Value := record.Coin
          ContainerName := cfg.backendContainerName },
        { ServiceName := cfg.statsServiceName
          Key := "STATS_CHARTS__TEMPLATE_VALUES__NATIVE_COIN_SYMBOL"
          Value := record.Coin
          ContainerName := cfg.statsContainerName } ]
      disk

/-! ## Name handler (src/internal/handlers/name.go, current variant) -/

/-- `MaxNameLength` (current source value). -/
def MaxNameLength : Nat := 40

/-- `NameHandler.validateName`: non-empty and at most 40 bytes. -/
def NameHandler.validateName (name : String) : Option String :=
  if name = "" then some "name cannot be empty"
  else if MaxNameLength < byteLen name then
    some "name length cannot exceed 40 characters"
  else none

/-- `NameHandler.Handle`: on a valid name, update the frontend unit's
network-name variables; restart the frontend container when anything
changed. -/
def NameHandler.Handle (cfg : Config) (record : Record) (disk : List String) :
    HandlerResult × List String :=
  match NameHandler.validateName record.Name with
  | some e => ({ Error := some ("invalid name: " ++ e) }, disk)
  | none =>
    let r := BaseHandler.UpdateServiceEnv cfg.frontendServiceName
      [ ("NEXT_PUBLIC_NETWORK_NAME", record.Name),
        ("NEXT_PUBLIC_NETWORK_SHORT_NAME", record.Name) ] disk
    ({ Error := none
       ContainersToRestart :=
        if r.1 then
          [{ Name := cfg.frontendContainerName, ServiceName := cfg.frontendServiceName }]
        else [] },
      r.2)

/-! ## Image handler (src/unnamed/part_008, current variant) -/

/-- Outcome of the HTTP HEAD probe `h.client.Head(imageURL)`; the network
round trip itself is abstracted into an oracle `String → FetchResult`. -/
inductive FetchResult where
  | unreachable
  | ok (status : Nat) (contentType : String)
deriving DecidableEq, Repr

/-- `MaxImageLength`. -/
def MaxImageLength : Nat := 2000

/-- `ImageHandler.validateImage`: non-empty, at most 2000 bytes, parses as
a URL whose scheme starts with `http`, and the HEAD probe must answer 200
with an `image/` content type. -/
def ImageHandler.validateImage (fetch : String → FetchResult)
    (imageURL : String) : Option String :=
  if imageURL = "" then some "image cannot be empty"
  else if MaxImageLength < byteLen imageURL then
    some "image length cannot exceed 2000 characters"
  else
    match parseURL imageURL with
    | none => some "invalid URL format"
    | some parsedURL =>
      if !strStartsWith parsedURL.Scheme "http" then
        some "URL must start with http:// or https://"
      else
        match fetch imageURL with
        | .unreachable => some "failed to access image"
        | .ok status contentType =>
          if status ≠ 200 then some "image not accessible"
          else if !strStartsWith contentType "image/" then
            some "URL does not point to an image"
          else none

/-- The three field checks of `ImageHandler.Handle`, in source order
(light logo, dark logo, favicon): each failing field overwrites
`result.Error` with its own message, each valid field contributes its
variable to the frontend update map. -/
def ImageHandler.collectUpdates (fetch : String → FetchResult)
    (record : Record) : Option String × List (String × String) :=
  let s1 : Option String × List (String × String) :=
    match ImageHandler.validateImage fetch record.LightLogoURL with
    | some e => (some ("invalid light logo URL: " ++ e), [])
    | none => (none, [("NEXT_PUBLIC_NETWORK_LOGO", record.LightLogoURL)])
  let s2 : Option String × List (String × String) :=
    match ImageHandler.validateImage fetch record.DarkLogoURL with
    | some e => (some ("invalid dark logo URL: " ++ e), s1.2)
    | none => (s1.1, s1.2 ++ [("NEXT_PUBLIC_NETWORK_LOGO_DARK", record.DarkLogoURL)])
  match ImageHandler.validateImage fetch record.FaviconURL with
  | some e => (some ("invalid favicon URL: " ++ e), s2.2)
  | none => (s2.1, s2.2 ++ [("NEXT_PUBLIC_NETWORK_ICON", record.FaviconURL)])

/-- `ImageHandler.Handle`: a total no-op when all three image fields are
empty; otherwise validate each field, apply the surviving updates to the
frontend service, and restart the frontend container when the stored
environment changed. -/
def ImageHandler.Handle (cfg : Config) (fetch : String → FetchResult)
    (record : Record) (disk : List String) : HandlerResult × List String :=
  if record.LightLogoURL = "" ∧ record.DarkLogoURL = "" ∧ record.FaviconURL = "" then
    ({ Error := none, ContainersToRestart := [] }, disk)
  else
    let c := ImageHandler.collectUpdates fetch record
    let r := BaseHandler.UpdateServiceEnv cfg.frontendServiceName c.2 disk
    ({ Error := c.1
       ContainersToRestart :=
        if r.1 then
          [{ Name := cfg.frontendContainerName, ServiceName := cfg.frontendServiceName }]
        else [] },
      r.2)

/-! ## Explorer handler (src/unnamed/part_007) -/

/-- `MaxExplorerURLLength`. -/
def MaxExplorerURLLength : Nat := 255

/-- `ExplorerHandler.validateExplorerURL`: non-empty, at most 255 bytes,
parses as a URL with a non-empty scheme and a non-empty host.  The scheme
is not required to be http or https. -/
def ExplorerHandler.validateExplorerURL (explorerURL : String) : Option String :=
  if explorerURL = "" then some "explorer URL cannot be empty"
  else if MaxExplorerURLLength < byteLen explorerURL then
    some "explorer URL length cannot exceed 255 characters"
  else
    match parseURL explorerURL with
    | none => some "invalid URL format"
    | some parsedURL =>
      if parsedURL.Scheme = "" then some "URL must include scheme (http:// or https://)"
      else if parsedURL.Host = "" then some "URL must include a valid host"
      else none

/-- `ExplorerHandler.extractHostFromURL`: the parsed host, with any port
(text from the first `:` on) removed. -/
def ExplorerHandler.extractHostFromURL (urlStr : String) : Option String :=
  match parseURL urlStr with
  | none => none
  | some parsedURL =>
    some (strOfChars (parsedURL.Host.data.takeWhile fun c => !(c = ':')))

/-- `ExplorerHandler.extractProtocolFromURL`: `http` exactly when the
parsed scheme is `http`; every other scheme — or an unparseable URL —
yields `https`. -/
def ExplorerHandler.extractProtocolFromURL (urlStr : String) : String :=
  match parseURL urlStr with
  | none => "https"
  | some parsedURL => if parsedURL.Scheme = "http" then "http" else "https"

/-- The `NEXT_PUBLIC_FEATURED_NETWORKS` value built by the explorer
handler (braces and apostrophes written as `\xNN` escapes). -/
def featuredNetworksValue (name protocol host : String) : String :=
  "[\x7b\x27title\x27:\x27Aurora\x27,\x27url\x27:\x27https://explorer.aurora.dev/\x27,\x27group\x27:\x27Mainnets\x27\x7d, \x7b\x27title\x27:\x27"
    ++ name ++ "\x27,\x27url\x27:\x27" ++ protocol ++ "://" ++ host
    ++ "\x27,\x27group\x27:\x27Mainnets\x27, \x27isActive\x27:true\x7d]"

/-- The batch of environment assignments the explorer handler writes to
the shared `sidecar-injected.env` file. -/
def ExplorerHandler.sidecarUpdates (record : Record) : List (String × String) :=
  let host := (ExplorerHandler.extractHostFromURL record.ExplorerURL).getD ""
  let protocol := ExplorerHandler.extractProtocolFromURL record.ExplorerURL
  [ ("BLOCKSCOUT_HOST", host),
    ("MICROSERVICE_VISUALIZE_SOL2UML_URL", protocol ++ "://visualize." ++ host),
    ("NEXT_PUBLIC_FEATURED_NETWORKS", featuredNetworksValue record.Name protocol host),
    ("NEXT_PUBLIC_API_HOST", host),
    ("NEXT_PUBLIC_APP_HOST", host),
    ("NEXT_PUBLIC_STATS_API_HOST", protocol ++ "://" ++ host),
    ("NEXT_PUBLIC_VISUALIZE_API_HOST", protocol ++ "://" ++ host),
    ("STATS__BLOCKSCOUT_API_URL", protocol ++ "://" ++ host),
    ("EXPLORER_URL", host),
    ("BLOCKSCOUT_HTTP_PROTOCOL", protocol) ]

/-- `ExplorerHandler.Handle`: validate the URL, derive host and protocol,
batch-update the shared env file (`h.UpdateEnvFile` — its body is not in
src; modelled from the spec's env-file backing as `Env.UpdateEnvVars`),
and, if anything changed, restart backend, frontend and stats, plus proxy
when both proxy identifiers are configured. -/
def ExplorerHandler.Handle (cfg : Config) (record : Record)
    (disk : List String) : HandlerResult × List String :=
  match ExplorerHandler.validateExplorerURL record.ExplorerURL with
  | some e => ({ Error := some ("invalid explorer URL: " ++ e) }, disk)
  | none =>
    match ExplorerHandler.extractHostFromURL record.ExplorerURL with
    | none => ({ Error := some "failed to extract host from explorer URL" }, disk)
    | some _ =>
      let r := Env.UpdateEnvVars disk (ExplorerHandler.sidecarUpdates record)
      ({ Error := none
         ContainersToRestart :=
          if r.1 then
            [ { Name := cfg.backendContainerName, ServiceName := cfg.backendServiceName },
              { Name := cfg.frontendContainerName, ServiceName := cfg.frontendServiceName },
              { Name := cfg.statsContainerName, ServiceName := cfg.statsServiceName } ]
              ++ (if cfg.proxyServiceName ≠ "" ∧ cfg.proxyContainerName ≠ "" then
                    [{ Name := cfg.proxyContainerName, ServiceName := cfg.proxyServiceName }]
                  else [])
          else [] },
        r.2)

/-! ## Handler pipeline and change listener
(`internal/subscription/subscription.go`) -/

/-- `PostgresChanges.HandleMessage`: run the coin, image and name handlers
in that order against the record, returning the first handler error
immediately; when every handler succeeds, submit one job with the
accumulated containers to the worker (a rejected submission is only
logged). -/
def PostgresChanges.HandleMessage (cfg : Config) (fetch : String → FetchResult)
    (record : Record) (disk : List String) (w : Worker) :
    Option String × List String × Worker :=
  let r1 := CoinHandler.Handle cfg record disk
  match r1.1.Error with
  | some e => (some ("handler error: " ++ e), r1.2, w)
  | none =>
    let r2 := ImageHandler.Handle cfg fetch record r1.2
    match r2.1.Error with
    | some e => (some ("handler error: " ++ e), r2.2, w)
    | none =>
      let r3 := NameHandler.Handle cfg record r2.2
      match r3.1.Error with
      | some e => (some ("handler error: " ++ e), r3.2, w)
      | none =>
        let containersToRestart :=
          r1.1.ContainersToRestart ++ r2.1.ContainersToRestart
            ++ r3.1.ContainersToRestart
        if containersToRestart = [] then (none, r3.2, w)
        else (none, r3.2, (Worker.AddJob w containersToRestart).2)

/-- Generic form of the `HandleMessage` loop over an arbitrary handler
list, with the same stop-at-first-error and submit-at-the-end shape. -/
def runHandlers (hs : List (Record → List String → HandlerResult × List String))
    (record : Record) (disk : List String) (w : Worker) (acc : List Container) :
    Option String × List String × Worker :=
  match hs with
  | [] =>
    if acc = [] then (none, disk, w) else (none, disk, (Worker.AddJob w acc).2)
  | h :: rest =>
    let r := h record disk
    match r.1.Error with
    | some e => (some ("handler error: " ++ e), r.2, w)
    | none => runHandlers rest record r.2 w (acc ++ r.1.ContainersToRestart)

/-- Modelled from the spec: the pipeline §4.2 describes — the same
control flow as `HandleMessage` but also running the explorer handler
(which exists in the source as `ExplorerHandler.Handle` yet is never
instantiated by `HandleMessage`).  Used to compare the code's pipeline
with the spec's. -/
def HandleMessageSpecFour (cfg : Config) (fetch : String → FetchResult)
    (record : Record) (disk : List String) (w : Worker) :
    Option String × List String × Worker :=
  runHandlers
    [ fun r d => CoinHandler.Handle cfg r d,
      fun r d => ImageHandler.Handle cfg fetch r d,
      fun r d => NameHandler.Handle cfg r d,
      fun r d => ExplorerHandler.Handle cfg r d ]
    record disk w []

/-- The row loop of `Subscription.InitialCheck`: each row either fails to
scan (`none`) — which makes the whole call return the scan error — or
yields a record that is fed to `HandleMessage`, whose error is only
logged before moving to the next row. -/
def Subscription.InitialCheckRows (cfg : Config) (fetch : String → FetchResult) :
    List (Option Record) → List String → Worker →
      Except String (List String × Worker)
  | [], disk, w => .ok (disk, w)
  | none :: _, _, _ => .error "failed to scan row"
  | some record :: rest, disk, w =>
    let r := PostgresChanges.HandleMessage cfg fetch record disk w
    Subscription.InitialCheckRows cfg fetch rest r.2.1 r.2.2

/-! ## Restart Worker submission behaviour (C1) -/

theorem Worker.addJob_fst_false_iff (s : Worker) (cs : List Container) :
    (Worker.AddJob s cs).1 = false ↔ cs = [] ∨ makeKey cs ∈ s.jobSet := by
  by_cases hcs : cs = []
  · simp [Worker.AddJob, hcs]
  · by_cases hk : makeKey cs ∈ s.jobSet <;> simp [Worker.AddJob, hcs, hk]

theorem Worker.addJob_accepted_state (s : Worker) (cs : List Container)
    (h : (Worker.AddJob s cs).1 = true) :
    (Worker.AddJob s cs).2 =
      { s with
        jobSet := insert (makeKey cs) s.jobSet
        jobs := s.jobs ++ [{ Containers := cs }] } := by
  by_cases hcs : cs = []
  · simp [Worker.AddJob, hcs] at h
  · by_cases hk : makeKey cs ∈ s.jobSet
    · simp [Worker.AddJob, hcs, hk] at h
    · simp [Worker.AddJob, hcs, hk]

theorem Worker.addJob_rejected_state (s : Worker) (cs : List Container)
    (h : (Worker.AddJob s cs).1 = false) : (Worker.AddJob s cs).2 = s := by
  by_cases hcs : cs = []
  · simp [Worker.AddJob, hcs]
  · by_cases hk : makeKey cs ∈ s.jobSet
    · simp [Worker.AddJob, hcs, hk]
    · simp [Worker.AddJob, hcs, hk] at h

/-- The unit set used in the C1 trace: one container named `a`. -/
def csA : List Container := [{ Name := "a", ServiceName := "svc" }]

/-- The job carrying `csA`. -/
def jobA : Job := { Containers := csA }

/-- C1 trace, step 1: `csA` is submitted and accepted. -/
def traceS1 : Worker := (Worker.AddJob Worker.initial csA).2

/-- C1 trace, step 2: the processing loop dequeues the job. -/
def traceS2 : Worker :=
  { jobs := [], inFlight := some jobA, jobSet := traceS1.jobSet }

/-- C1 trace, step 3: recreation succeeds and the immediate `cleanupJob`
erases the key; the closure still holds the job through the settle
delay. -/
def traceS3 : Worker :=
  { traceS2 with jobSet := traceS2.jobSet.erase (makeKey jobA.Containers) }

/-- C1 trace, step 4: during the settle delay an identical submission is
accepted — the key was just erased — so an equal-key job is queued and
the key re-marked. -/
def traceS4 : Worker := (Worker.AddJob traceS3 csA).2

/-- C1 trace, step 5: the settle delay ends and the *deferred*
`cleanupJob` runs, erasing the re-added key while the step-4 job is still
queued. -/
def traceS5 : Worker :=
  { traceS4 with jobSet := traceS4.jobSet.erase (makeKey jobA.Containers), inFlight := none }

/-- C1 counterexample: a real interleaving of part_000 — submit, dequeue,
successful recreation with its immediate cleanup, an identical submission
during the settle delay, then the deferred cleanup — reaches a state
where a job with the same key is queued yet `AddJob` for that very unit
set returns true, refuting the claimed iff: the deferred second cleanup
strips the key of the still-queued job. -/
theorem Worker.AddJob_true_with_equal_key_queued :
    Worker.Reachable traceS5
    ∧ makeKey csA ∈ Worker.queuedOrInFlightKeys traceS5
    ∧ (Worker.AddJob traceS5 csA).1 = true := by
  refine ⟨?_, by decide, by decide⟩
  have h1 : Worker.Step Worker.initial traceS1 := Worker.Step.submit Worker.initial csA
  have h2 : Worker.Step traceS1 traceS2 :=
    Worker.Step.dequeue traceS1 jobA [] (by decide) (by decide)
  have h3 : Worker.Step traceS2 traceS3 :=
    Worker.Step.cleanupHold traceS2 jobA (by decide)
  have h4 : Worker.Step traceS3 traceS4 := Worker.Step.submit traceS3 csA
  have h5 : Worker.Step traceS4 traceS5 :=
    Worker.Step.cleanupRelease traceS4 jobA (by decide)
  exact ((((Relation.ReflTransGen.refl.tail h1).tail h2).tail h3).tail h4).tail h5

/-- C1 (amended): a call to the Restart Worker's `AddJob` returns false
exactly when the submitted container list is empty or its sorted,
deduplicated container-name key is currently in the worker's dedup set;
otherwise the job is enqueued, its key is marked, and the call returns
true (a rejected call leaves the worker's state untouched).  The dedup
set tracks the queued-or-in-flight keys only until an identical
submission lands inside a success settle delay — the deferred cleanup
then strips the key of the still-queued job (see the counterexample), so
membership in the dedup set, not "queued or in flight", is what the code
tests. -/
theorem Worker.AddJob_accepts_iff_key_unmarked (s : Worker) (cs : List Container) :
    ((Worker.AddJob s cs).1 = false ↔ cs = [] ∨ makeKey cs ∈ s.jobSet)
    ∧ ((Worker.AddJob s cs).1 = true →
        (Worker.AddJob s cs).2 =
          { s with
            jobSet := insert (makeKey cs) s.jobSet
            jobs := s.jobs ++ [{ Containers := cs }] })
    ∧ ((Worker.AddJob s cs).1 = false → (Worker.AddJob s cs).2 = s) :=
  ⟨Worker.addJob_fst_false_iff s cs, Worker.addJob_accepted_state s cs,
    Worker.addJob_rejected_state s cs⟩

/-- C3: The in-flight key of a processed job is deleted from the dedup set
at the instant the container-recreation call finishes — `finishRecreation`
is that state, reached before any settle delay runs, and the failure path
(`processJob _ _ false`) coincides with it — so a submission with an
identical (non-empty) unit set during the settle delay, or at any point
after a failed recreation, is accepted. -/
theorem Worker.inFlight_key_cleared_on_finish (s : Worker) (j : Job)
    (success : Bool) (cs : List Container)
    (hkey : makeKey cs = makeKey j.Containers) (hne : cs ≠ []) :
    makeKey j.Containers ∉ (Worker.finishRecreation s j).jobSet
    ∧ Worker.processJob s j false = Worker.finishRecreation s j
    ∧ (Worker.AddJob (Worker.finishRecreation s j) cs).1 = true
    ∧ (Worker.AddJob (Worker.processJob s j success) cs).1 = true := by
  have haccept : ∀ t : Worker, makeKey cs ∉ t.jobSet → (Worker.AddJob t cs).1 = true := by
    intro t hk
    rcases hb : (Worker.AddJob t cs).1 with _ | _
    · rcases (Worker.addJob_fst_false_iff t cs).1 hb with h | h
      · exact absurd h hne
      · exact absurd h hk
    · rfl
  refine ⟨?_, by simp [Worker.processJob], ?_, ?_⟩
  · simp [Worker.finishRecreation, Worker.cleanupJob]
  · exact haccept _ (by simp [Worker.finishRecreation, Worker.cleanupJob, hkey])
  · cases success with
    | false =>
      exact haccept _ (by simp [Worker.processJob, Worker.finishRecreation,
        Worker.cleanupJob, hkey])
    | true =>
      exact haccept _ (by simp [Worker.processJob, Worker.finishRecreation,
        Worker.cleanupJob, hkey])

theorem Worker.inFlight_key_cleared_on_finish_witness :
    makeKey [({ Name := "a", ServiceName := "s" } : Container)] =
      makeKey (Job.mk [{ Name := "a", ServiceName := "s" }]).Containers
    ∧ ([({ Name := "a", ServiceName := "s" } : Container)] ≠ [])
    ∧ (makeKey (Job.mk [{ Name := "a", ServiceName := "s" }]).Containers ∉
        (Worker.finishRecreation Worker.initial
          (Job.mk [{ Name := "a", ServiceName := "s" }])).jobSet
      ∧ Worker.processJob Worker.initial (Job.mk [{ Name := "a", ServiceName := "s" }]) false =
          Worker.finishRecreation Worker.initial (Job.mk [{ Name := "a", ServiceName := "s" }])
      ∧ (Worker.AddJob
          (Worker.finishRecreation Worker.initial (Job.mk [{ Name := "a", ServiceName := "s" }]))
          [{ Name := "a", ServiceName := "s" }]).1 = true
      ∧ (Worker.AddJob
          (Worker.processJob Worker.initial (Job.mk [{ Name := "a", ServiceName := "s" }]) true)
          [{ Name := "a", ServiceName := "s" }]).1 = true) :=
  ⟨by decide, by decide,
    Worker.inFlight_key_cleared_on_finish Worker.initial
      (Job.mk [{ Name := "a", ServiceName := "s" }]) true
      [{ Name := "a", ServiceName := "s" }] (by decide) (by decide)⟩

/-- C9: `makeKey` is not injective on container lists denoting different
unit sets: a single container named `a,b` and the two containers named
`a` and `b` yield the same comma-joined key, so once a job for one set is
queued, submitting the other set is rejected. -/
theorem makeKey_not_injective :
    makeKey [{ Name := "a,b", ServiceName := "s" }] =
      makeKey [{ Name := "a", ServiceName := "sa" }, { Name := "b", ServiceName := "sb" }]
    ∧ List.map Container.Name [({ Name := "a,b", ServiceName := "s" } : Container)] ≠
        List.map Container.Name
          [({ Name := "a", ServiceName := "sa" } : Container),
            { Name := "b", ServiceName := "sb" }]
    ∧ (Worker.AddJob
        (Worker.AddJob Worker.initial
          [{ Name := "a", ServiceName := "sa" }, { Name := "b", ServiceName := "sb" }]).2
        [{ Name := "a,b", ServiceName := "s" }]).1 = false := by
  refine ⟨by decide, by decide, by decide⟩

/-! ## Config Mutator idempotence (C5) -/

theorem applyEnvUpdates_fst_false_iff (m : EnvMap) (us : List (String × String)) :
    (applyEnvUpdates m us).1 = false ↔ ∀ kv ∈ us, envLookup m kv.1 = some kv.2 := by
  induction us generalizing m with
  | nil => simp [applyEnvUpdates]
  | cons kv rest ih =>
    by_cases h : envLookup m kv.1 = some kv.2
    · simp [applyEnvUpdates, h, ih, List.forall_mem_cons]
    · simp [applyEnvUpdates, h, List.forall_mem_cons]

/-- C5 counterexample: with the stored file empty and the single update
`KEY ↦ "x"` (a value carrying its own double quotes), the first call
reports a change and writes `KEY="x"`, but re-reading strips the quotes
(`strings.Trim(value, "\"'")`), so the second call with the very same map
reports `changed=true` again instead of `changed=false`. -/
theorem Env.UpdateEnvVars_second_call_reports_change :
    (Env.UpdateEnvVars [] [("KEY", "\"x\"")]).1 = true
    ∧ (Env.UpdateEnvVars [] [("KEY", "\"x\"")]).2 = ["KEY=\"x\""]
    ∧ (Env.UpdateEnvVars (Env.UpdateEnvVars [] [("KEY", "\"x\"")]).2
        [("KEY", "\"x\"")]).1 = true := by
  refine ⟨by decide, by decide, by decide⟩

/-- C5 (amended): the first `UpdateEnvVars` call reports `changed=true`
exactly when some requested key differs from the stored state, and a call
that changed nothing leaves the file untouched; provided every written
value survives the file's write/read round trip (no value-mangling
quote stripping), the second call with the same map reports
`changed=false`. -/
theorem Env.UpdateEnvVars_idempotent_for_roundtrip_values
    (disk : List String) (updates : List (String × String))
    (hround : ∀ kv ∈ updates,
      envLookup (parseEnvFile (Env.UpdateEnvVars disk updates).2) kv.1 = some kv.2) :
    ((Env.UpdateEnvVars disk updates).1 = true ↔
      ∃ kv ∈ updates, envLookup (parseEnvFile disk) kv.1 ≠ some kv.2)
    ∧ (Env.UpdateEnvVars (Env.UpdateEnvVars disk updates).2 updates).1 = false
    ∧ ((Env.UpdateEnvVars disk updates).1 = false →
        (Env.UpdateEnvVars disk updates).2 = disk) := by
  refine ⟨?_, ?_, ?_⟩
  · show (applyEnvUpdates (parseEnvFile disk) updates).1 = true ↔ _
    constructor
    · intro ht
      by_contra hno
      push_neg at hno
      have hf := (applyEnvUpdates_fst_false_iff (parseEnvFile disk) updates).2 hno
      rw [hf] at ht
      exact Bool.false_ne_true ht
    · rintro ⟨kv, hmem, hne⟩
      rcases hb : (applyEnvUpdates (parseEnvFile disk) updates).1 with _ | _
      · exact absurd ((applyEnvUpdates_fst_false_iff _ _).1 hb kv hmem) hne
      · rfl
  · show (applyEnvUpdates (parseEnvFile (Env.UpdateEnvVars disk updates).2) updates).1 = false
    exact (applyEnvUpdates_fst_false_iff _ _).2 hround
  · intro hf
    show (if (applyEnvUpdates (parseEnvFile disk) updates).1 then _ else disk) = disk
    rw [show (applyEnvUpdates (parseEnvFile disk) updates).1 = false from hf]
    simp

theorem Env.UpdateEnvVars_idempotent_for_roundtrip_values_witness :
    (∀ kv ∈ [("A", "2")],
      envLookup (parseEnvFile (Env.UpdateEnvVars ["A=1"] [("A", "2")]).2) kv.1 = some kv.2)
    ∧ (((Env.UpdateEnvVars ["A=1"] [("A", "2")]).1 = true ↔
        ∃ kv ∈ [("A", "2")], envLookup (parseEnvFile ["A=1"]) kv.1 ≠ some kv.2)
      ∧ (Env.UpdateEnvVars (Env.UpdateEnvVars ["A=1"] [("A", "2")]).2 [("A", "2")]).1 = false
      ∧ ((Env.UpdateEnvVars ["A=1"] [("A", "2")]).1 = false →
          (Env.UpdateEnvVars ["A=1"] [("A", "2")]).2 = ["A=1"])) :=
  ⟨by decide, Env.UpdateEnvVars_idempotent_for_roundtrip_values ["A=1"] [("A", "2")] (by decide)⟩

/-! ## Explorer URL validation laxness (C10) -/

/-- A 256-byte URL with scheme `ftp` and a non-empty host. -/
def longFtpURL : String :=
  strOfChars ('f' :: 't' :: 'p' :: ':' :: '/' :: '/' :: List.replicate 250 'a')

set_option maxRecDepth 100000 in
/-- C10 counterexample: this URL parses with a non-empty scheme and a
non-empty host, yet `validateExplorerURL` rejects it — acceptance is
bounded by the 255-character length check the claim omits. -/
theorem validateExplorerURL_rejects_long_parseable_URL :
    (parseURL longFtpURL).map GoURL.Scheme = some "ftp"
    ∧ (parseURL longFtpURL).map GoURL.Host ≠ some ""
    ∧ ExplorerHandler.validateExplorerURL longFtpURL ≠ none := by
  refine ⟨by decide, by decide, by decide⟩

/-- C10 (amended): `validateExplorerURL` accepts every URL of length at
most 255 bytes that parses with a non-empty scheme and a non-empty host,
regardless of the scheme, and `extractProtocolFromURL` maps every parsed
scheme other than exactly `http` to `https`. -/
theorem validateExplorerURL_scheme_agnostic (url : String) (u : GoURL)
    (hlen : byteLen url ≤ 255) (hp : parseURL url = some u)
    (hs : u.Scheme ≠ "") (hh : u.Host ≠ "") :
    ExplorerHandler.validateExplorerURL url = none
    ∧ (u.Scheme ≠ "http" → ExplorerHandler.extractProtocolFromURL url = "https") := by
  have hne : url ≠ "" := by
    intro h
    subst h
    have hz : parseURL "" = some ⟨"", ""⟩ := by decide
    rw [hz] at hp
    injection hp with h2
    subst h2
    exact hs rfl
  constructor
  · simp only [ExplorerHandler.validateExplorerURL]
    rw [if_neg hne,
      if_neg (by simp only [MaxExplorerURLLength]; omega : ¬ MaxExplorerURLLength < byteLen url)]
    simp only [hp]
    rw [if_neg hs, if_neg hh]
  · intro hnh
    simp only [ExplorerHandler.extractProtocolFromURL, hp]
    rw [if_neg hnh]

theorem validateExplorerURL_scheme_agnostic_witness :
    byteLen "ftp://host" ≤ 255
    ∧ parseURL "ftp://host" = some ⟨"ftp", "host"⟩
    ∧ ("ftp" : String) ≠ ""
    ∧ ("host" : String) ≠ ""
    ∧ (ExplorerHandler.validateExplorerURL "ftp://host" = none
      ∧ ((GoURL.mk "ftp" "host").Scheme ≠ "http" →
          ExplorerHandler.extractProtocolFromURL "ftp://host" = "https")) :=
  ⟨by decide, by decide, by decide, by decide,
    validateExplorerURL_scheme_agnostic "ftp://host" ⟨"ftp", "host"⟩
      (by decide) (by decide) (by decide) (by decide)⟩

/-! ## Explorer handler restart cascade (C6) -/

theorem ExplorerHandler.extract_of_valid (url : String)
    (h : ExplorerHandler.validateExplorerURL url = none) :
    ∃ host, ExplorerHandler.extractHostFromURL url = some host := by
  simp only [ExplorerHandler.validateExplorerURL] at h
  by_cases h1 : url = ""
  · rw [if_pos h1] at h
    cases h
  rw [if_neg h1] at h
  by_cases h2 : MaxExplorerURLLength < byteLen url
  · rw [if_pos h2] at h
    cases h
  rw [if_neg h2] at h
  cases hp : parseURL url with
  | none =>
    simp only [hp] at h
    cases h
  | some u =>
    refine ⟨strOfChars (u.Host.data.takeWhile fun c => !(c = ':')), ?_⟩
    simp [ExplorerHandler.extractHostFromURL, hp]

/-- Concrete fixture: a configuration with every service, container and
proxy identifier set. -/
def cfgA : Config :=
  { frontendServiceName := "frontend"
    frontendContainerName := "frontend-c"
    backendServiceName := "backend"
    backendContainerName := "backend-c"
    statsServiceName := "stats"
    statsContainerName := "stats-c"
    proxyServiceName := "proxy"
    proxyContainerName := "proxy-c" }

/-- Concrete fixture: a fetch oracle whose every HEAD probe answers 200
with an image content type. -/
def fetchOkA : String → FetchResult := fun _ => .ok 200 "image/png"

/-- C6: For a record whose explorer URL validates, the explorer handler
reports no error, and its restart set is exactly backend + frontend +
stats — plus proxy exactly when both the proxy service name and the proxy
container name are configured — when the batch environment update changed
at least one value, and is empty when the batch update changed
nothing. -/
theorem ExplorerHandler.restart_set (cfg : Config) (record : Record)
    (disk : List String)
    (hvalid : ExplorerHandler.validateExplorerURL record.ExplorerURL = none) :
    (ExplorerHandler.Handle cfg record disk).1.Error = none
    ∧ (ExplorerHandler.Handle cfg record disk).1.ContainersToRestart =
        (if (Env.UpdateEnvVars disk (ExplorerHandler.sidecarUpdates record)).1 then
          [ { Name := cfg.backendContainerName, ServiceName := cfg.backendServiceName },
            { Name := cfg.frontendContainerName, ServiceName := cfg.frontendServiceName },
            { Name := cfg.statsContainerName, ServiceName := cfg.statsServiceName } ]
            ++ (if cfg.proxyServiceName ≠ "" ∧ cfg.proxyContainerName ≠ "" then
                  [{ Name := cfg.proxyContainerName, ServiceName := cfg.proxyServiceName }]
                else [])
        else []) := by
  obtain ⟨host, hh⟩ := ExplorerHandler.extract_of_valid _ hvalid
  simp only [ExplorerHandler.Handle, hvalid, hh]
  exact ⟨trivial, trivial⟩

theorem ExplorerHandler.restart_set_witness :
    ExplorerHandler.validateExplorerURL
      (Record.mk 0 "Aurora" "" "" "" "" "" "https://explorer.example.com" "" "").ExplorerURL = none
    ∧ ((ExplorerHandler.Handle cfgA
          (Record.mk 0 "Aurora" "" "" "" "" "" "https://explorer.example.com" "" "") []).1.Error = none
      ∧ (ExplorerHandler.Handle cfgA
          (Record.mk 0 "Aurora" "" "" "" "" "" "https://explorer.example.com" "" "") []).1.ContainersToRestart =
          (if (Env.UpdateEnvVars []
                (ExplorerHandler.sidecarUpdates
                  (Record.mk 0 "Aurora" "" "" "" "" "" "https://explorer.example.com" "" ""))).1 then
            [ { Name := cfgA.backendContainerName, ServiceName := cfgA.backendServiceName },
              { Name := cfgA.frontendContainerName, ServiceName := cfgA.frontendServiceName },
              { Name := cfgA.statsContainerName, ServiceName := cfgA.statsServiceName } ]
              ++ (if cfgA.proxyServiceName ≠ "" ∧ cfgA.proxyContainerName ≠ "" then
                    [{ Name := cfgA.proxyContainerName, ServiceName := cfgA.proxyServiceName }]
                  else [])
          else [])) :=
  ⟨by decide,
    ExplorerHandler.restart_set cfgA
      (Record.mk 0 "Aurora" "" "" "" "" "" "https://explorer.example.com" "" "") [] (by decide)⟩

/-! ## Image handler field validation (C7) -/

theorem envLookup_envSet_self (m : EnvMap) (k v : String) :
    envLookup (envSet m k v) k = some v := by
  induction m with
  | nil => simp [envSet, envLookup]
  | cons p rest ih =>
    by_cases h : p.1 = k
    · simp [envSet, envLookup, h]
    · simp [envSet, envLookup, h, ih]

theorem envLookup_envSet_ne (m : EnvMap) (k v k' : String) (h : k' ≠ k) :
    envLookup (envSet m k v) k' = envLookup m k' := by
  have h' : ¬ k = k' := fun hk => h hk.symm
  induction m with
  | nil => simp [envSet, envLookup, h']
  | cons p rest ih =>
    by_cases hp : p.1 = k
    · subst hp
      simp [envSet, envLookup, h']
    · simp [envSet, envLookup, hp, ih]

theorem applyEnvUpdates_lookup_not_mem (m : EnvMap)
    (us : List (String × String)) (k : String) (h : k ∉ us.map Prod.fst) :
    envLookup (applyEnvUpdates m us).2 k = envLookup m k := by
  induction us generalizing m with
  | nil => simp [applyEnvUpdates]
  | cons kv rest ih =>
    simp only [List.map_cons, List.mem_cons, not_or] at h
    by_cases hc : envLookup m kv.1 = some kv.2
    · simp only [applyEnvUpdates, if_pos hc]
      exact ih m h.2
    · simp only [applyEnvUpdates, if_neg hc]
      rw [ih (envSet m kv.1 kv.2) h.2, envLookup_envSet_ne m kv.1 kv.2 k h.1]

theorem applyEnvUpdates_lookup_mem (m : EnvMap) (us : List (String × String))
    (k v : String) (hmem : (k, v) ∈ us) (hnd : (us.map Prod.fst).Nodup) :
    envLookup (applyEnvUpdates m us).2 k = some v := by
  induction us generalizing m with
  | nil => cases hmem
  | cons kv rest ih =>
    simp only [List.map_cons, List.nodup_cons] at hnd
    rcases List.mem_cons.1 hmem with hhead | htail
    · subst hhead
      by_cases hc : envLookup m k = some v
      · simp only [applyEnvUpdates, if_pos hc]
        rw [applyEnvUpdates_lookup_not_mem m rest k hnd.1]
        exact hc
      · simp only [applyEnvUpdates, if_neg hc]
        rw [applyEnvUpdates_lookup_not_mem _ rest k hnd.1]
        exact envLookup_envSet_self m k v
    · by_cases hc : envLookup m kv.1 = some kv.2
      · simp only [applyEnvUpdates, if_pos hc]
        exact ih m htail hnd.2
      · simp only [applyEnvUpdates, if_neg hc]
        exact ih (envSet m kv.1 kv.2) htail hnd.2

/-- Concrete fixture: a record whose light logo is a valid image URL and
whose dark logo and favicon are empty. -/
def recLightOnly : Record :=
  Record.mk 0 "Aurora" "" "" "https://img.example.com/logo.png" "" "" "" "" ""

/-- C7 counterexample: with a valid light logo and empty dark logo and
favicon fields, the image handler reports an error even though the claim
says an empty field produces none — the empty fields are validated too,
and the reported error is the *last* failing field's (the favicon's
"image cannot be empty"), while the valid light logo update is still
applied to the file. -/
theorem ImageHandler.empty_field_yields_error :
    (ImageHandler.Handle cfgA fetchOkA recLightOnly []).1.Error ≠ none
    ∧ (ImageHandler.Handle cfgA fetchOkA recLightOnly []).1.Error =
        some "invalid favicon URL: image cannot be empty"
    ∧ envLookup
        (parseEnvFile (ImageHandler.Handle cfgA fetchOkA recLightOnly []).2)
        "NEXT_PUBLIC_NETWORK_LOGO" = some "https://img.example.com/logo.png" := by
  refine ⟨by decide, by decide, by decide⟩

/-- C7 (amended): whenever at least one of the three image fields is
non-empty, the handler validates all three fields — an empty field among
them fails validation, and the reported error is exactly the last failing
field's, checked in the order light logo, dark logo, favicon — while a
failure on one field does not prevent any valid field's update from being
applied: each valid field's variable is set to its value in the updated
map, which is what the handler writes back to disk. -/
theorem ImageHandler.validates_all_three_fields (cfg : Config)
    (fetch : String → FetchResult) (record : Record) (disk : List String)
    (hne : ¬(record.LightLogoURL = "" ∧ record.DarkLogoURL = "" ∧ record.FaviconURL = "")) :
    ((ImageHandler.Handle cfg fetch record disk).1.Error = none ↔
      (ImageHandler.validateImage fetch record.LightLogoURL = none
        ∧ ImageHandler.validateImage fetch record.DarkLogoURL = none
        ∧ ImageHandler.validateImage fetch record.FaviconURL = none))
    ∧ (ImageHandler.Handle cfg fetch record disk).1.Error =
        (match ImageHandler.validateImage fetch record.FaviconURL with
          | some e => some ("invalid favicon URL: " ++ e)
          | none =>
            match ImageHandler.validateImage fetch record.DarkLogoURL with
            | some e => some ("invalid dark logo URL: " ++ e)
            | none =>
              match ImageHandler.validateImage fetch record.LightLogoURL with
              | some e => some ("invalid light logo URL: " ++ e)
              | none => none)
    ∧ (ImageHandler.validateImage fetch record.LightLogoURL = none →
        envLookup
          (applyEnvUpdates (parseEnvFile disk)
            (ImageHandler.collectUpdates fetch record).2).2
          "NEXT_PUBLIC_NETWORK_LOGO" = some record.LightLogoURL)
    ∧ (ImageHandler.validateImage fetch record.DarkLogoURL = none →
        envLookup
          (applyEnvUpdates (parseEnvFile disk)
            (ImageHandler.collectUpdates fetch record).2).2
          "NEXT_PUBLIC_NETWORK_LOGO_DARK" = some record.DarkLogoURL)
    ∧ (ImageHandler.validateImage fetch record.FaviconURL = none →
        envLookup
          (applyEnvUpdates (parseEnvFile disk)
            (ImageHandler.collectUpdates fetch record).2).2
          "NEXT_PUBLIC_NETWORK_ICON" = some record.FaviconURL)
    ∧ (ImageHandler.Handle cfg fetch record disk).2 =
        (Env.UpdateEnvVars disk (ImageHandler.collectUpdates fetch record).2).2 := by
  refine ⟨?_, ?_, ?_, ?_, ?_, ?_⟩
  · simp only [ImageHandler.Handle, if_neg hne]
    cases h1 : ImageHandler.validateImage fetch record.LightLogoURL <;>
      cases h2 : ImageHandler.validateImage fetch record.DarkLogoURL <;>
        cases h3 : ImageHandler.validateImage fetch record.FaviconURL <;>
          simp [ImageHandler.collectUpdates, h1, h2, h3]
  · simp only [ImageHandler.Handle, if_neg hne]
    cases h1 : ImageHandler.validateImage fetch record.LightLogoURL <;>
      cases h2 : ImageHandler.validateImage fetch record.DarkLogoURL <;>
        cases h3 : ImageHandler.validateImage fetch record.FaviconURL <;>
          simp [ImageHandler.collectUpdates, h1, h2, h3]
  · intro h1
    apply applyEnvUpdates_lookup_mem
    · cases h2 : ImageHandler.validateImage fetch record.DarkLogoURL <;>
        cases h3 : ImageHandler.validateImage fetch record.FaviconURL <;>
          simp [ImageHandler.collectUpdates, h1, h2, h3]
    · cases h2 : ImageHandler.validateImage fetch record.DarkLogoURL <;>
        cases h3 : ImageHandler.validateImage fetch record.FaviconURL <;>
          simp [ImageHandler.collectUpdates, h1, h2, h3]
  · intro h2
    apply applyEnvUpdates_lookup_mem
    · cases h1 : ImageHandler.validateImage fetch record.LightLogoURL <;>
        cases h3 : ImageHandler.validateImage fetch record.FaviconURL <;>
          simp [ImageHandler.collectUpdates, h1, h2, h3]
    · cases h1 : ImageHandler.validateImage fetch record.LightLogoURL <;>
        cases h3 : ImageHandler.validateImage fetch record.FaviconURL <;>
          simp [ImageHandler.collectUpdates, h1, h2, h3]
  · intro h3
    apply applyEnvUpdates_lookup_mem
    · cases h1 : ImageHandler.validateImage fetch record.LightLogoURL <;>
        cases h2 : ImageHandler.validateImage fetch record.DarkLogoURL <;>
          simp [ImageHandler.collectUpdates, h1, h2, h3]
    · cases h1 : ImageHandler.validateImage fetch record.LightLogoURL <;>
        cases h2 : ImageHandler.validateImage fetch record.DarkLogoURL <;>
          simp [ImageHandler.collectUpdates, h1, h2, h3]
  · simp only [ImageHandler.Handle, if_neg hne]
    rfl

theorem ImageHandler.validates_all_three_fields_witness :
    ¬(recLightOnly.LightLogoURL = "" ∧ recLightOnly.DarkLogoURL = ""
      ∧ recLightOnly.FaviconURL = "")
    ∧ (((ImageHandler.Handle cfgA fetchOkA recLightOnly []).1.Error = none ↔
        (ImageHandler.validateImage fetchOkA recLightOnly.LightLogoURL = none
          ∧ ImageHandler.validateImage fetchOkA recLightOnly.DarkLogoURL = none
          ∧ ImageHandler.validateImage fetchOkA recLightOnly.FaviconURL = none))
      ∧ (ImageHandler.Handle cfgA fetchOkA recLightOnly []).1.Error =
          (match ImageHandler.validateImage fetchOkA recLightOnly.FaviconURL with
            | some e => some ("invalid favicon URL: " ++ e)
            | none =>
              match ImageHandler.validateImage fetchOkA recLightOnly.DarkLogoURL with
              | some e => some ("invalid dark logo URL: " ++ e)
              | none =>
                match ImageHandler.validateImage fetchOkA recLightOnly.LightLogoURL with
                | some e => some ("invalid light logo URL: " ++ e)
                | none => none)
      ∧ (ImageHandler.validateImage fetchOkA recLightOnly.LightLogoURL = none →
          envLookup
            (applyEnvUpdates (parseEnvFile [])
              (ImageHandler.collectUpdates fetchOkA recLightOnly).2).2
            "NEXT_PUBLIC_NETWORK_LOGO" = some recLightOnly.LightLogoURL)
      ∧ (ImageHandler.validateImage fetchOkA recLightOnly.DarkLogoURL = none →
          envLookup
            (applyEnvUpdates (parseEnvFile [])
              (ImageHandler.collectUpdates fetchOkA recLightOnly).2).2
            "NEXT_PUBLIC_NETWORK_LOGO_DARK" = some recLightOnly.DarkLogoURL)
      ∧ (ImageHandler.validateImage fetchOkA recLightOnly.FaviconURL = none →
          envLookup
            (applyEnvUpdates (parseEnvFile [])
              (ImageHandler.collectUpdates fetchOkA recLightOnly).2).2
            "NEXT_PUBLIC_NETWORK_ICON" = some recLightOnly.FaviconURL)
      ∧ (ImageHandler.Handle cfgA fetchOkA recLightOnly []).2 =
          (Env.UpdateEnvVars []
            (ImageHandler.collectUpdates fetchOkA recLightOnly).2).2) :=
  ⟨by decide,
    ImageHandler.validates_all_three_fields cfgA fetchOkA recLightOnly [] (by decide)⟩

/-! ## Handler pipeline control flow (C2, C4) -/

/-- C2 counterexample: with an invalid (empty) coin symbol and a valid
fresh name, `HandleMessage` returns the coin handler's error without the
name handler having run (its variable is never written) and without any
restart job having been submitted — the later handlers and the submission
are abandoned, not merely accompanied by an aggregate error. -/
theorem HandleMessage_abandons_later_handlers :
    (PostgresChanges.HandleMessage cfgA fetchOkA
      (Record.mk 0 "Aurora" "" "" "" "" "" "" "" "") [] Worker.initial).1 ≠ none
    ∧ envLookup
        (parseEnvFile
          (PostgresChanges.HandleMessage cfgA fetchOkA
            (Record.mk 0 "Aurora" "" "" "" "" "" "" "" "") [] Worker.initial).2.1)
        "NEXT_PUBLIC_NETWORK_NAME" = none
    ∧ (PostgresChanges.HandleMessage cfgA fetchOkA
        (Record.mk 0 "Aurora" "" "" "" "" "" "" "" "") [] Worker.initial).2.2.jobs = [] := by
  refine ⟨by decide, by decide, by decide⟩

/-- C2 (amended): `HandleMessage` returns the first handler's error
immediately, whichever of the coin, image or name handlers errs first:
the call returns that handler's error, the later handlers do not run
(the returned file state is the erring handler's post-state) and no
restart job is submitted (the worker is untouched).  Only when all three
handlers succeed is a job submitted, carrying the accumulated containers
— and only if that accumulation is non-empty. -/
theorem HandleMessage_stops_at_first_error (cfg : Config)
    (fetch : String → FetchResult) (record : Record) (disk : List String)
    (w : Worker) :
    (∀ e, (CoinHandler.Handle cfg record disk).1.Error = some e →
      PostgresChanges.HandleMessage cfg fetch record disk w =
        (some ("handler error: " ++ e), (CoinHandler.Handle cfg record disk).2, w))
    ∧ (∀ e, (CoinHandler.Handle cfg record disk).1.Error = none →
        (ImageHandler.Handle cfg fetch record
          (CoinHandler.Handle cfg record disk).2).1.Error = some e →
        PostgresChanges.HandleMessage cfg fetch record disk w =
          (some ("handler error: " ++ e),
            (ImageHandler.Handle cfg fetch record
              (CoinHandler.Handle cfg record disk).2).2, w))
    ∧ (∀ e, (CoinHandler.Handle cfg record disk).1.Error = none →
        (ImageHandler.Handle cfg fetch record
          (CoinHandler.Handle cfg record disk).2).1.Error = none →
        (NameHandler.Handle cfg record
          (ImageHandler.Handle cfg fetch record
            (CoinHandler.Handle cfg record disk).2).2).1.Error = some e →
        PostgresChanges.HandleMessage cfg fetch record disk w =
          (some ("handler error: " ++ e),
            (NameHandler.Handle cfg record
              (ImageHandler.Handle cfg fetch record
                (CoinHandler.Handle cfg record disk).2).2).2, w))
    ∧ ((CoinHandler.Handle cfg record disk).1.Error = none →
        (ImageHandler.Handle cfg fetch record
          (CoinHandler.Handle cfg record disk).2).1.Error = none →
        (NameHandler.Handle cfg record
          (ImageHandler.Handle cfg fetch record
            (CoinHandler.Handle cfg record disk).2).2).1.Error = none →
        PostgresChanges.HandleMessage cfg fetch record disk w =
          (if (CoinHandler.Handle cfg record disk).1.ContainersToRestart
              ++ (ImageHandler.Handle cfg fetch record
                  (CoinHandler.Handle cfg record disk).2).1.ContainersToRestart
              ++ (NameHandler.Handle cfg record
                  (ImageHandler.Handle cfg fetch record
                    (CoinHandler.Handle cfg record disk).2).2).1.ContainersToRestart = []
          then
            (none,
              (NameHandler.Handle cfg record
                (ImageHandler.Handle cfg fetch record
                  (CoinHandler.Handle cfg record disk).2).2).2, w)
          else
            (none,
              (NameHandler.Handle cfg record
                (ImageHandler.Handle cfg fetch record
                  (CoinHandler.Handle cfg record disk).2).2).2,
              (Worker.AddJob w
                ((CoinHandler.Handle cfg record disk).1.ContainersToRestart
                  ++ (ImageHandler.Handle cfg fetch record
                      (CoinHandler.Handle cfg record disk).2).1.ContainersToRestart
                  ++ (NameHandler.Handle cfg record
                      (ImageHandler.Handle cfg fetch record
                        (CoinHandler.Handle cfg record disk).2).2).1.ContainersToRestart)).2))) := by
  refine ⟨?_, ?_, ?_, ?_⟩
  · intro e h1
    simp only [PostgresChanges.HandleMessage, h1]
  · intro e h1 h2
    simp only [PostgresChanges.HandleMessage, h1, h2]
  · intro e h1 h2 h3
    simp only [PostgresChanges.HandleMessage, h1, h2, h3]
  · intro h1 h2 h3
    simp only [PostgresChanges.HandleMessage, h1, h2, h3]

theorem HandleMessage_stops_at_first_error_witness :
    PostgresChanges.HandleMessage cfgA fetchOkA
      (Record.mk 0 "Aurora" "" "" "" "" "" "" "" "") [] Worker.initial =
      (some ("handler error: " ++ "invalid coin: coin symbol cannot be empty"),
        (CoinHandler.Handle cfgA (Record.mk 0 "Aurora" "" "" "" "" "" "" "" "") []).2,
        Worker.initial) :=
  (HandleMessage_stops_at_first_error cfgA fetchOkA
      (Record.mk 0 "Aurora" "" "" "" "" "" "" "" "") [] Worker.initial).1
    "invalid coin: coin symbol cannot be empty" (by decide)

/-- A record whose coin and name already match `diskFour` and whose
explorer URL is set: only the explorer handler would change anything. -/
def recFour : Record :=
  Record.mk 0 "Aurora" "ETH" "" "" "" "" "https://explorer.example.com" "" ""

/-- On-disk env file already carrying the coin and name values of
`recFour`. -/
def diskFour : List String :=
  [ "NEXT_PUBLIC_NETWORK_CURRENCY_SYMBOL=ETH",
    "COIN=ETH",
    "STATS_CHARTS__TEMPLATE_VALUES__NATIVE_COIN_SYMBOL=ETH",
    "NEXT_PUBLIC_NETWORK_NAME=Aurora",
    "NEXT_PUBLIC_NETWORK_SHORT_NAME=Aurora" ]

/-- C4 counterexample: on a record whose only effective change is the
explorer URL, the pipeline of the code (coin, image, name) differs from
the spec's four-handler pipeline: the code's call changes nothing and
submits no job, while the four-handler pipeline would submit one — the
explorer handler is not among the handlers `HandleMessage` runs. -/
theorem HandleMessage_runs_three_handlers_not_four :
    PostgresChanges.HandleMessage cfgA fetchOkA recFour diskFour Worker.initial ≠
      HandleMessageSpecFour cfgA fetchOkA recFour diskFour Worker.initial
    ∧ (PostgresChanges.HandleMessage cfgA fetchOkA recFour diskFour Worker.initial).1 = none
    ∧ (PostgresChanges.HandleMessage cfgA fetchOkA recFour diskFour Worker.initial).2.2.jobs = []
    ∧ (HandleMessageSpecFour cfgA fetchOkA recFour diskFour Worker.initial).2.2.jobs ≠ [] := by
  refine ⟨by decide, by decide, by decide, by decide⟩

/-- C4 (amended): `HandleMessage` runs exactly three handlers — coin,
image, name — in that fixed order (with stop-at-first-error and a single
submission of the accumulated containers at the end). -/
theorem HandleMessage_is_coin_image_name_pipeline (cfg : Config)
    (fetch : String → FetchResult) (record : Record) (disk : List String)
    (w : Worker) :
    PostgresChanges.HandleMessage cfg fetch record disk w =
      runHandlers
        [ fun r d => CoinHandler.Handle cfg r d,
          fun r d => ImageHandler.Handle cfg fetch r d,
          fun r d => NameHandler.Handle cfg r d ]
        record disk w [] := by
  simp only [PostgresChanges.HandleMessage, runHandlers]
  cases h1 : (CoinHandler.Handle cfg record disk).1.Error with
  | some e => simp [h1]
  | none =>
    simp only [h1]
    cases h2 : (ImageHandler.Handle cfg fetch record
        (CoinHandler.Handle cfg record disk).2).1.Error with
    | some e => simp [h2]
    | none =>
      simp only [h2]
      cases h3 : (NameHandler.Handle cfg record
          (ImageHandler.Handle cfg fetch record
            (CoinHandler.Handle cfg record disk).2).2).1.Error with
      | some e => simp [h3]
      | none => simp [h3, List.append_assoc]

/-! ## Initial reconciliation row loop (C8) -/

/-- C8 counterexample: a single row whose scan fails makes the
reconciliation row loop — and hence `InitialCheck` and `Subscribe` —
return an error instead of skipping the row. -/
theorem InitialCheck_scan_failure_is_fatal :
    (Subscription.InitialCheckRows cfgA fetchOkA [none] [] Worker.initial).isOk = false := by
  decide

/-- C8 (amended): a failure to handle one scanned record is only logged –
the loop continues and `InitialCheck` still succeeds whenever every row
scans (handler errors are never fatal); a scan failure, by contrast,
aborts the call (see the counterexample). -/
theorem InitialCheckRows_handle_errors_not_fatal (cfg : Config)
    (fetch : String → FetchResult) (rows : List (Option Record))
    (disk : List String) (w : Worker) (h : ∀ x ∈ rows, x ≠ none) :
    (Subscription.InitialCheckRows cfg fetch rows disk w).isOk = true := by
  induction rows generalizing disk w with
  | nil => rfl
  | cons x rest ih =>
    cases x with
    | none => exact absurd rfl (h none (List.mem_cons_self _ _))
    | some r =>
      simp only [Subscription.InitialCheckRows]
      exact ih _ _ (fun y hy => h y (List.mem_cons_of_mem _ hy))

theorem InitialCheckRows_handle_errors_not_fatal_witness :
    (∀ x ∈ [some (Record.mk 0 "Aurora" "" "" "" "" "" "" "" "")], x ≠ none)
    ∧ (Subscription.InitialCheckRows cfgA fetchOkA
        [some (Record.mk 0 "Aurora" "" "" "" "" "" "" "" "")] [] Worker.initial).isOk = true :=
  ⟨by decide,
    InitialCheckRows_handle_errors_not_fatal cfgA fetchOkA
      [some (Record.mk 0 "Aurora" "" "" "" "" "" "" "" "")] [] Worker.initial (by decide)⟩
